import Mathlib

/-!
Verification of the realtime duplex audio session manager of this repository
(`src/utils/audioUtils` = `src/unnamed/part_000`, `src/services/liveService.ts`,
and the revision `src/unnamed/part_009` of the same service).

Floating-point sample values are embedded as exact rationals, machine 16-bit
integers as `ℤ` with the explicit `Int16Array` wrap-around conversion, and the
output audio clock as a rational number of seconds.
-/

namespace NanaDH

/-- Conversion performed by an `Int16Array` store: truncation toward zero has
already produced an integer; the store then wraps it into `[-32768, 32767]`. -/
def toInt16 (n : ℤ) : ℤ := (n + 32768) % 65536 - 32768

/-- JavaScript number-to-integer truncation (toward zero), on exact rationals. -/
def jsTrunc (q : ℚ) : ℤ := if q < 0 then ⌈q⌉ else ⌊q⌋

/-- Embedding of `float32ToInt16` (src/unnamed/part_000, lines 28-36): clamp each
sample to `[-1, 1]`, scale negatives by `0x8000` and non-negatives by `0x7FFF`,
and store into an `Int16Array`. -/
def float32ToInt16 (float32Array : List ℚ) : List ℤ :=
  float32Array.map fun x =>
    let s := max (-1) (min 1 x)
    toInt16 (jsTrunc (if s < 0 then s * 32768 else s * 32767))

/-- Embedding of `int16ToFloat32` (src/unnamed/part_000, lines 39-46): divide
each 16-bit sample by `32768.0`. -/
def int16ToFloat32 (int16Buffer : List ℤ) : List ℚ :=
  int16Buffer.map fun (i : ℤ) => (i : ℚ) / 32768

/-- Embedding of `downsampleBuffer` (src/unnamed/part_000, lines 53-69):
identity when the rates agree, otherwise decimation picking the source sample
at `floor(i * inputRate / outputRate)`.  The floors are `Nat.floor` since both
quantities are non-negative. -/
def downsampleBuffer (buffer : List ℚ) (inputSampleRate outputSampleRate : ℕ) : List ℚ :=
  if outputSampleRate = inputSampleRate then buffer
  else
    let sampleRateRatio : ℚ := (inputSampleRate : ℚ) / (outputSampleRate : ℚ)
    let newLength : ℕ := ⌊(buffer.length : ℚ) / sampleRateRatio⌋₊
    (List.range newLength).map fun (i : ℕ) => buffer.getD ⌊(i : ℚ) * sampleRateRatio⌋₊ 0

/-! Session state model for `LiveService` (src/services/liveService.ts).
The output audio clock (`audioCtx.currentTime`) is passed in explicitly as a
rational `now`; scheduled `AudioBufferSourceNode`s are recorded as
start-time/duration pairs; host callbacks are recorded as emitted events. -/

/-- The `EyeState` enum of src/unnamed/part_001. -/
inductive EyeState where
  | IDLE
  | LISTENING
  | SPEAKING
  | THINKING
  | SLEEP
deriving DecidableEq

/-- A live `AudioBufferSourceNode` as tracked in `audioSources`, reduced to its
scheduled start time and its buffer duration (`length / 24000`). -/
structure ScheduledBuffer where
  startTime : ℚ
  duration : ℚ
deriving DecidableEq

/-- The mutable fields of `LiveService` that the playback, interruption and
transcript logic reads and writes. -/
structure LiveState where
  nextStartTime : ℚ
  audioSources : List ScheduledBuffer
  isInterrupted : Bool
  currentInputTranscription : String
  currentOutputTranscription : String
deriving DecidableEq

/-- Host-visible effects: `onStateChange`, `onTranscript`, and (for analysis)
the scheduling of a buffer on the output clock. -/
inductive Ev where
  | stateChange (state : EyeState)
  | transcript (text : String) (isUser : Bool) (isFinal : Bool)
  | enqueued (startTime duration : ℚ)
deriving DecidableEq

/-- Embedding of `LiveService.playAudioChunk` (src/services/liveService.ts,
lines 426-455): decode the chunk, snap `nextStartTime` forward to `now` if it
fell behind, schedule the buffer at `nextStartTime`, advance the cursor by the
buffer duration and track the source.  The `onended` callback (removal from
the live set plus the 100ms idle debounce) is a later async event and is not
part of this step. -/
def playAudioChunk (now : ℚ) (data : List ℤ) (st : LiveState) : LiveState × List Ev :=
  if st.isInterrupted then (st, [])
  else
    let float32Data := int16ToFloat32 data
    let duration : ℚ := (float32Data.length : ℚ) / 24000
    let nextStartTime := if st.nextStartTime < now then now else st.nextStartTime
    ({ st with
        nextStartTime := nextStartTime + duration,
        audioSources := st.audioSources ++ [⟨nextStartTime, duration⟩] },
      [Ev.enqueued nextStartTime duration])

/-- Embedding of `LiveService.stopAudioPlayback` (src/services/liveService.ts,
lines 457-463): stop and clear every live source, reset `nextStartTime` to the
current clock time, and notify `LISTENING`. -/
def stopAudioPlayback (now : ℚ) (st : LiveState) : LiveState × List Ev :=
  ({ st with audioSources := [], nextStartTime := now },
    [Ev.stateChange EyeState.LISTENING])

/-- The inbound message shape consumed by `handleMessage`; `Option` fields model
absent or falsy (empty-string) payloads. -/
structure ServerMessage where
  audioData : Option (List ℤ)
  interrupted : Bool
  inputTranscription : Option String
  outputTranscription : Option String
  turnComplete : Bool
deriving DecidableEq

/-- Embedding of `LiveService.handleMessage` (src/services/liveService.ts,
lines 261-301), branch for branch in source order.  The 200ms deferred
`LISTENING` check after `turnComplete` is a timer callback and emits nothing
at this step. -/
def handleMessage (now : ℚ) (message : ServerMessage) (st : LiveState) : LiveState × List Ev :=
  let r1 :=
    match message.audioData with
    | some data =>
      if st.isInterrupted then (st, ([] : List Ev))
      else
        let r := playAudioChunk now data st
        (r.1, r.2 ++ [Ev.stateChange EyeState.SPEAKING])
    | none => (st, [])
  let r2 :=
    if message.interrupted then
      let r := stopAudioPlayback now r1.1
      ({ r.1 with isInterrupted := true, currentOutputTranscription := "" }, r.2)
    else (r1.1, [])
  let r3 :=
    match message.inputTranscription with
    | some t =>
      if t ≠ "" then
        ({ r2.1 with currentInputTranscription := r2.1.currentInputTranscription ++ t },
          [Ev.transcript (r2.1.currentInputTranscription ++ t) true false])
      else (r2.1, [])
    | none => (r2.1, [])
  let r4 :=
    match message.outputTranscription with
    | some t =>
      if t ≠ "" then
        ({ r3.1 with currentOutputTranscription := r3.1.currentOutputTranscription ++ t },
          [Ev.transcript (r3.1.currentOutputTranscription ++ t) false false])
      else (r3.1, [])
    | none => (r3.1, [])
  let r5 :=
    if message.turnComplete then
      let stA := { r4.1 with isInterrupted := false }
      let rB :=
        if stA.currentInputTranscription ≠ "" then
          ({ stA with currentInputTranscription := "" },
            [Ev.transcript stA.currentInputTranscription true true])
        else (stA, ([] : List Ev))
      let rC :=
        if rB.1.currentOutputTranscription ≠ "" then
          ({ rB.1 with currentOutputTranscription := "" },
            [Ev.transcript rB.1.currentOutputTranscription false true])
        else (rB.1, ([] : List Ev))
      (rC.1, rB.2 ++ rC.2)
    else (r4.1, [])
  (r5.1, r1.2 ++ r2.2 ++ r3.2 ++ r4.2 ++ r5.2)

/-- Processing of a stream of inbound messages, each with the output-clock
value at which it arrives. -/
def processMessages (msgs : List (ℚ × ServerMessage)) (st : LiveState) : LiveState × List Ev :=
  match msgs with
  | [] => (st, [])
  | (now, m) :: rest =>
    let r1 := handleMessage now m st
    let r2 := processMessages rest r1.1
    (r2.1, r1.2 ++ r2.2)

/-- A sequence of playback enqueues, each with the clock value at its call. -/
def enqueueAll (chunks : List (ℚ × List ℤ)) (st : LiveState) : LiveState × List Ev :=
  match chunks with
  | [] => (st, [])
  | (now, data) :: rest =>
    let r1 := playAudioChunk now data st
    let r2 := enqueueAll rest r1.1
    (r2.1, r1.2 ++ r2.2)

/-- Whether, along a sequence of enqueues, the output clock never overtakes the
`nextStartTime` cursor (no playback underrun). -/
def noUnderrun : LiveState → List (ℚ × List ℤ) → Bool
  | _, [] => true
  | st, (now, data) :: rest =>
    decide (now ≤ st.nextStartTime) && noUnderrun (playAudioChunk now data st).1 rest

/-- Consecutive scheduled buffers do not overlap. -/
def gapFree (b1 b2 : ScheduledBuffer) : Prop := b1.startTime + b1.duration ≤ b2.startTime

/-- A buffer starts exactly when the previous one ends. -/
def backToBack (b1 b2 : ScheduledBuffer) : Prop := b2.startTime = b1.startTime + b1.duration

/-- A bare `turnComplete` server message. -/
def turnCompleteMsg : ServerMessage :=
  { audioData := none, interrupted := false, inputTranscription := none,
    outputTranscription := none, turnComplete := true }

/-! Tool-call dispatcher model (src/services/liveService.ts lines 303-337 and
the revision src/unnamed/part_009 lines 234-291). -/

/-- The `VideoState` interface of src/unnamed/part_001. -/
structure VideoState where
  isOpen : Bool
  type : Option String
  url : String
  title : String
deriving DecidableEq

/-- Host-side command callbacks the tool dispatcher can invoke. -/
inductive HostCommand where
  | videoCommand (video : VideoState)
  | deepSleepCommand
  | openSettingsCommand
  | notification (message : String)
deriving DecidableEq

/-- Result payloads constructed by `handleToolCall` in
src/services/liveService.ts (lines 303-337).  The dispatcher never constructs
an error payload, so this type has no error variant. -/
inductive ToolResult where
  | ok
  | playing (video : String)
  | enteringSleepMode
  | settingsOpened
  | reminderSet
  | reported
deriving DecidableEq

/-- Result payloads constructed by the `play_youtube_video` branch of the
`handleToolCall` revision in src/unnamed/part_009 (lines 239-263). -/
inductive ToolResultV9 where
  | ok
  | playing (videoId : String)
  | fallbackSearch (query : String)
deriving DecidableEq

/-- JavaScript `String.prototype.trim`: strip whitespace from both ends. -/
def jsTrim (s : String) : String :=
  String.mk (((s.data.dropWhile Char.isWhitespace).reverse.dropWhile Char.isWhitespace).reverse)

/-- The 11-character media-identifier test of src/unnamed/part_009, line 245:
the regular expression `[a-zA-Z0-9_-]` repeated exactly 11 times, anchored. -/
def isValidVideoId (s : String) : Bool :=
  s.length == 11 && s.data.all fun c => c.isAlphanum || c == '_' || c == '-'

/-- Coalescing of the `title` argument, `(fc.args.title || "YouTube Video")`:
an absent or empty title falls back to the default. -/
def titleOrDefault (titleArg : Option String) : String :=
  match titleArg with
  | none => "YouTube Video"
  | some t => if t = "" then "YouTube Video" else t

/-- Embedding of the `play_youtube_video` branch of `handleToolCall` in
src/unnamed/part_009 (lines 239-263): coalesce the arguments, then a valid
11-character id autoplays, while any other value opens a search card built
from the title and reports a `fallback_search` result. -/
def playYoutubeVideoV9 (videoIdArg titleArg : Option String) : HostCommand × ToolResultV9 :=
  let videoId := jsTrim (videoIdArg.getD "")
  let title := titleOrDefault titleArg
  if isValidVideoId videoId then
    (HostCommand.videoCommand ⟨true, some "youtube", videoId, "Đang phát: " ++ title⟩,
      ToolResultV9.playing videoId)
  else
    (HostCommand.videoCommand ⟨true, some "youtube", title, "Tìm kiếm: " ++ title⟩,
      ToolResultV9.fallbackSearch title)

/-- Arguments of an inbound function call; absent fields are `none`. -/
structure FunctionCallArgs where
  search_query : Option String := none
  delay_minutes : Option ℚ := none
  label : Option String := none
  language : Option String := none
deriving DecidableEq

/-- An inbound `ToolCall` entry. -/
structure FunctionCall where
  id : String
  name : String
  args : FunctionCallArgs
deriving DecidableEq

/-- The `toolResult` message sent back through the transport. -/
structure ToolResponse where
  id : String
  name : String
  result : ToolResult
deriving DecidableEq

/-- Removal of single and double quote characters from the raw query,
mirroring the global-replace on line 310. -/
def removeQuotes (s : String) : String :=
  String.mk (s.data.filter fun c => ¬ (c = Char.ofNat 39 ∨ c = Char.ofNat 34))

/-- Embedding of the dispatch body of `LiveService.handleToolCall`
(src/services/liveService.ts, lines 304-329) for a single function call: the
chain of name tests, each emitting its host command and overwriting the
default result. -/
def handleFunctionCall (fc : FunctionCall) : List HostCommand × ToolResult :=
  let r0 : List HostCommand × ToolResult := ([], ToolResult.ok)
  let r1 :=
    if fc.name = "play_youtube_video" then
      let rawQuery := fc.args.search_query.getD ""
      let query := jsTrim (removeQuotes rawQuery)
      (r0.1 ++ [HostCommand.videoCommand ⟨true, some "youtube", query, "Đang phát: " ++ query⟩],
        ToolResult.playing query)
    else r0
  let r2 :=
    if fc.name = "enter_deep_sleep" then
      (r1.1 ++ [HostCommand.deepSleepCommand], ToolResult.enteringSleepMode)
    else r1
  let r3 :=
    if fc.name = "open_settings" then
      (r2.1 ++ [HostCommand.openSettingsCommand], ToolResult.settingsOpened)
    else r2
  let r4 := if fc.name = "set_reminder" then (r3.1, ToolResult.reminderSet) else r3
  let r5 :=
    if fc.name = "report_language_change" then
      let lang :=
        match fc.args.language with
        | none => "Unknown"
        | some l => if l = "" then "Unknown" else l
      (r4.1 ++ [HostCommand.notification ("Đang dịch ngôn ngữ: " ++ lang)], ToolResult.reported)
    else r4
  r5

/-- The tool names `handleFunctionCall` dispatches on. -/
def knownToolNames : List String :=
  ["play_youtube_video", "enter_deep_sleep", "open_settings", "set_reminder",
    "report_language_change"]

/-- Embedding of `LiveService.handleToolCall` (src/services/liveService.ts,
lines 303-337): each function call of the batch is dispatched in order and its
result is sent back with the same id and name, provided the session promise is
live. -/
def handleToolCall (sessionLive : Bool) (functionCalls : List FunctionCall) :
    List HostCommand × List ToolResponse :=
  match functionCalls with
  | [] => ([], [])
  | fc :: rest =>
    let r := handleFunctionCall fc
    let responses := if sessionLive then [ToolResponse.mk fc.id fc.name r.2] else []
    let rr := handleToolCall sessionLive rest
    (r.1 ++ rr.1, responses ++ rr.2)

/-! Connection-lifecycle model (`connect` lines 206-214, `disconnect` lines
465-492, `handleOpen` lines 231-259, the send in `onaudioprocess` lines
409-416). -/

/-- Effects of the connection lifecycle. -/
inductive Act where
  | trackStop
  | processorDisconnect
  | sourceDisconnect
  | gainDisconnect
  | lowPassDisconnect
  | highPassDisconnect
  | stopAllPlayback
  | closeSession (handle : ℕ)
  | adoptSession (handle : ℕ)
  | sendFrame (handle : ℕ)
deriving DecidableEq

/-- Connection-lifecycle fields of `LiveService`: the owned `session` handle,
the in-flight `sessionPromise` (named by the handle it will resolve to), the
close callback `disconnect` may have registered on that promise, and whether
the capture graph is running. -/
structure ConnState where
  session : Option ℕ
  sessionPromise : Option ℕ
  pendingClose : Option ℕ
  micOn : Bool
deriving DecidableEq

/-- Embedding of `LiveService.disconnect` (src/services/liveService.ts, lines
465-492): stop the microphone track, disconnect the filter graph, stop all
playback, then close the owned session, or, when only the promise exists,
register a close callback on it; finally null both references. -/
def disconnect (st : ConnState) : ConnState × List Act :=
  let stopActs : List Act :=
    [Act.trackStop, Act.processorDisconnect, Act.sourceDisconnect, Act.gainDisconnect,
      Act.lowPassDisconnect, Act.highPassDisconnect, Act.stopAllPlayback]
  let r :=
    match st.session with
    | some h => (st, [Act.closeSession h])
    | none =>
      match st.sessionPromise with
      | some h => ({ st with pendingClose := some h }, ([] : List Act))
      | none => (st, [])
  ({ r.1 with session := none, sessionPromise := none }, stopActs ++ r.2)

/-- Start of `LiveService.connect` (line 206): the in-flight promise is
stored. -/
def connectStart (h : ℕ) (st : ConnState) : ConnState := { st with sessionPromise := some h }

/-- Resolution of the connect promise (lines 207-214, then any close callback
registered by `disconnect`): the awaited continuation closes the resolved
handle when `sessionPromise` was nulled in the meantime and otherwise adopts
it as `session`; afterwards the registered close callback, if any, closes the
handle as well. -/
def resolveConnect (h : ℕ) (st : ConnState) : ConnState × List Act :=
  let r1 :=
    if st.sessionPromise = none then (st, [Act.closeSession h])
    else ({ st with session := some h }, ([Act.adoptSession h] : List Act))
  let r2 :=
    match r1.1.pendingClose with
    | some h2 =>
      if h2 = h then ({ r1.1 with pendingClose := none }, [Act.closeSession h])
      else (r1.1, [])
    | none => (r1.1, [])
  (r2.1, r1.2 ++ r2.2)

/-- The transport `onopen` callback (`handleOpen`, lines 231-259) starts the
capture graph. -/
def handleOpen (st : ConnState) : ConnState := { st with micOn := true }

/-- One `onaudioprocess` tick as seen by the connection model: when the capture
graph runs, the frame send is registered on the current session promise
(lines 409-416); with no live promise nothing is sent. -/
def audioTick (st : ConnState) : List Act :=
  if st.micOn then
    match st.sessionPromise with
    | some h => [Act.sendFrame h]
    | none => []
  else []

/-- Connection-lifecycle events, in arrival order. -/
inductive SessionEvent where
  | connectStarted (handle : ℕ)
  | connectResolved (handle : ℕ)
  | disconnectRequested
  | opened
  | tick
deriving DecidableEq

/-- One connection-lifecycle step. -/
def sessionStep (st : ConnState) (e : SessionEvent) : ConnState × List Act :=
  match e with
  | SessionEvent.connectStarted h => (connectStart h st, [])
  | SessionEvent.connectResolved h => resolveConnect h st
  | SessionEvent.disconnectRequested => disconnect st
  | SessionEvent.opened => (handleOpen st, [])
  | SessionEvent.tick => (st, audioTick st)

/-- A run of connection-lifecycle events, accumulating the emitted effects. -/
def sessionRun (st : ConnState) (es : List SessionEvent) : ConnState × List Act :=
  match es with
  | [] => (st, [])
  | e :: rest =>
    let r1 := sessionStep st e
    let r2 := sessionRun r1.1 rest
    (r2.1, r1.2 ++ r2.2)

/-! Capture-side noise gate (src/services/liveService.ts, lines 388-403). -/

/-- Sum of squares of a captured frame (the `sum` accumulator of the
`onaudioprocess` handler). -/
def frameSumSq (inputData : List ℚ) : ℚ := (inputData.map fun s => s * s).sum

/-- The frame RMS, `Math.sqrt(sum / inputData.length)`. -/
noncomputable def frameRms (inputData : List ℚ) : ℝ :=
  Real.sqrt ((frameSumSq inputData : ℝ) / (inputData.length : ℝ))

/-- Embedding of the noise-gate portion of the `onaudioprocess` handler
(src/services/liveService.ts, lines 388-403): compute the RMS, report
`rms * 100` through `onVolumeChange`, then zero the whole frame when the RMS
is below the context-dependent threshold (`0.03` while the assistant is
playing, `0.015` while it is silent).  `isAIPlaying` is the value of
`audioSources.size > 0` read at the start of the frame.  Returns the gated
frame and the reported volume. -/
noncomputable def onaudioprocess (isAIPlaying : Bool) (inputData : List ℚ) :
    List ℚ × ℝ :=
  let rms := frameRms inputData
  let volume := rms * 100
  let noiseThreshold : ℝ := if isAIPlaying then 0.03 else 0.015
  (if rms < noiseThreshold then inputData.map fun _ => 0 else inputData, volume)

lemma toInt16_eq_self {n : ℤ} (h1 : -32768 ≤ n) (h2 : n ≤ 32767) : toInt16 n = n := by
  unfold toInt16; omega

/-- Round trip of one clamped sample: the error is strictly below `2/32768`.
For negative samples it is below `1/32768`; for non-negative samples the
encoder scales by `32767` while the decoder divides by `32768`, which costs up
to an extra `(q+1)/32768` of error near `1`. -/
lemma roundTrip_sample (q : ℚ) (h1 : -1 ≤ q) (h2 : q ≤ 1) :
    |q - (toInt16 (jsTrunc (if max (-1) (min 1 q) < 0
        then max (-1) (min 1 q) * 32768 else max (-1) (min 1 q) * 32767)) : ℚ) / 32768|
      < 2 / 32768 := by
  have hclamp : max (-1) (min 1 q) = q := by
    rw [min_eq_right h2, max_eq_right h1]
  rw [hclamp, abs_sub_lt_iff]
  by_cases hq : q < 0
  · rw [if_pos hq]
    have hv2 : q * 32768 < 0 := by nlinarith
    rw [jsTrunc, if_pos hv2]
    have hlo : (-32768 : ℤ) ≤ ⌈q * 32768⌉ := by
      have : (-32769 : ℤ) < ⌈q * 32768⌉ := Int.lt_ceil.2 (by push_cast; nlinarith)
      omega
    have hup : ⌈q * 32768⌉ ≤ 32767 := Int.ceil_le.2 (by push_cast; nlinarith)
    rw [toInt16_eq_self hlo hup]
    have hc1 : q * 32768 ≤ (⌈q * 32768⌉ : ℚ) := Int.le_ceil _
    have hc2 : (⌈q * 32768⌉ : ℚ) < q * 32768 + 1 := Int.ceil_lt_add_one _
    constructor <;> linarith
  · rw [if_neg hq]
    push_neg at hq
    have hv0 : ¬ q * 32767 < 0 := by nlinarith
    rw [jsTrunc, if_neg hv0]
    have hlo : (0 : ℤ) ≤ ⌊q * 32767⌋ := Int.le_floor.2 (by push_cast; nlinarith)
    have hup : ⌊q * 32767⌋ ≤ 32767 := by
      have hle : (⌊q * 32767⌋ : ℚ) ≤ ((32767 : ℤ) : ℚ) := by
        calc (⌊q * 32767⌋ : ℚ) ≤ q * 32767 := Int.floor_le _
        _ ≤ ((32767 : ℤ) : ℚ) := by push_cast; nlinarith
      exact_mod_cast hle
    rw [toInt16_eq_self (by omega) hup]
    have hf1 : (⌊q * 32767⌋ : ℚ) ≤ q * 32767 := Int.floor_le _
    have hf2 : q * 32767 - 1 < (⌊q * 32767⌋ : ℚ) := Int.sub_one_lt_floor _
    constructor <;> linarith

/-- Claim C2 (counterexample): for the in-range sample `0.9999`, the round-trip
error of the codec exceeds the claimed `1/32768` bound (the encoder scales
non-negative samples by `32767` but the decoder divides by `32768`). -/
theorem c2_roundTrip_bound_counterexample :
    ((-1 : ℚ) ≤ 9999 / 10000 ∧ (9999 / 10000 : ℚ) ≤ 1) ∧
    ¬ |(9999 / 10000 : ℚ) - (int16ToFloat32 (float32ToInt16 [9999 / 10000])).getD 0 0|
        ≤ 1 / 32768 := by
  constructor
  · constructor <;> norm_num
  · rw [float32ToInt16, int16ToFloat32]
    norm_num [jsTrunc, toInt16]
    rw [abs_of_pos (by norm_num)]
    norm_num

/-- Claim C2 (amended): decoding the encoded wire form of a float sample array
with values in `[-1, 1]` yields an array of the same length whose entries
differ from the original by strictly less than `2/32768` (the bound `1/32768`
holds for negative samples but not for non-negative ones). -/
theorem c2_roundTrip_quantization (x : List ℚ) (hx : ∀ v ∈ x, -1 ≤ v ∧ v ≤ 1) :
    List.Forall₂ (fun a b => |a - b| < 2 / 32768) x (int16ToFloat32 (float32ToInt16 x)) := by
  rw [float32ToInt16, int16ToFloat32, List.map_map, List.forall₂_map_right_iff,
    List.forall₂_same]
  intro v hv
  exact roundTrip_sample v (hx v hv).1 (hx v hv).2

/-- Witness for C2's amended theorem at the concrete sample array `[1/2]`. -/
theorem c2_roundTrip_quantization_witness :
    List.Forall₂ (fun a b => |a - b| < 2 / 32768) [(1 : ℚ) / 2]
      (int16ToFloat32 (float32ToInt16 [(1 : ℚ) / 2])) :=
  c2_roundTrip_quantization [(1 : ℚ) / 2] (by intro v hv; simp at hv; constructor <;> norm_num [hv])

/-- Claim C6: `downsampleBuffer` is the identity when the rates agree; when
`inputRate > outputRate` the output length is `floor(len * outputRate /
inputRate)` and output element `i` is the input element at index
`floor(i * inputRate / outputRate)`. -/
theorem c6_downsample_spec (x : List ℚ) (rin rout : ℕ) :
    (rin = rout → downsampleBuffer x rin rout = x) ∧
    (rout < rin →
      (downsampleBuffer x rin rout).length = x.length * rout / rin ∧
      ∀ i, i < (downsampleBuffer x rin rout).length →
        i * rin / rout < x.length ∧
        (downsampleBuffer x rin rout).getD i 0 = x.getD (i * rin / rout) 0) := by
  constructor
  · intro h
    rw [downsampleBuffer, if_pos h.symm]
  · intro hlt
    have hne : ¬ rout = rin := Nat.ne_of_lt hlt
    have hrin : 0 < rin := by omega
    rw [downsampleBuffer, if_neg hne]
    simp only [List.length_map, List.length_range]
    have hlen : ⌊(x.length : ℚ) / ((rin : ℚ) / (rout : ℚ))⌋₊ = x.length * rout / rin := by
      rcases Nat.eq_zero_or_pos rout with h0 | hpos
      · subst h0
        simp
      · have : (x.length : ℚ) / ((rin : ℚ) / (rout : ℚ)) = ((x.length * rout : ℕ) : ℚ) / (rin : ℕ) := by
          push_cast
          field_simp
        rw [this, Nat.floor_div_nat, Nat.floor_natCast]
    rw [hlen]
    refine ⟨rfl, fun i hi => ?_⟩
    have hoff : ⌊(i : ℚ) * ((rin : ℚ) / (rout : ℚ))⌋₊ = i * rin / rout := by
      have hpos : 0 < rout := by
        by_contra h0
        have : rout = 0 := by omega
        subst this
        simp at hi
      have : (i : ℚ) * ((rin : ℚ) / (rout : ℚ)) = ((i * rin : ℕ) : ℚ) / (rout : ℕ) := by
        push_cast
        field_simp
      rw [this, Nat.floor_div_nat, Nat.floor_natCast]
    constructor
    · have hpos : 0 < rout := by
        by_contra h0
        have : rout = 0 := by omega
        subst this
        simp at hi
      have h1 : i + 1 ≤ x.length * rout / rin := hi
      have h2 : (i + 1) * rin ≤ x.length * rout / rin * rin :=
        Nat.mul_le_mul_right _ h1
      have h3 : x.length * rout / rin * rin ≤ x.length * rout := Nat.div_mul_le_self _ _
      rw [Nat.div_lt_iff_lt_mul hpos]
      have : i * rin < (i + 1) * rin := by
        have := hrin
        nlinarith
      omega
    · rw [List.getD_eq_getElem _ _ (by simpa using hi)]
      rw [List.getElem_map, List.getElem_range, hoff]

/-- Witness for C6's theorem at a concrete buffer and rates `3 → 1`. -/
theorem c6_downsample_spec_witness :
    ((3 : ℕ) = 1 → downsampleBuffer [1, 2, 3, 4, 5, 6] 3 1 = [1, 2, 3, 4, 5, 6]) ∧
    ((1 : ℕ) < 3 →
      (downsampleBuffer [1, 2, 3, 4, 5, 6] 3 1).length = [(1 : ℚ), 2, 3, 4, 5, 6].length * 1 / 3 ∧
      ∀ i, i < (downsampleBuffer [1, 2, 3, 4, 5, 6] 3 1).length →
        i * 3 / 1 < [(1 : ℚ), 2, 3, 4, 5, 6].length ∧
        (downsampleBuffer [1, 2, 3, 4, 5, 6] 3 1).getD i 0
          = [(1 : ℚ), 2, 3, 4, 5, 6].getD (i * 3 / 1) 0) :=
  c6_downsample_spec [1, 2, 3, 4, 5, 6] 3 1

/-- Claim C4: after `stopAudioPlayback` the live-source set is empty and
`nextStartTime` equals (hence is at most) the current clock time; calling it
again at the same clock time is a no-op on the state and repeats the same
event (idempotence, also valid with zero live sources); and any buffer a
subsequent `playAudioChunk` schedules starts at or after the clock time of
that enqueue. -/
theorem c4_stopAll_spec (st : LiveState) (now clock : ℚ) (data : List ℤ) :
    (stopAudioPlayback now st).1.audioSources = [] ∧
    (stopAudioPlayback now st).1.nextStartTime = now ∧
    (stopAudioPlayback now st).1.nextStartTime ≤ now ∧
    stopAudioPlayback now (stopAudioPlayback now st).1 = stopAudioPlayback now st ∧
    (∀ s d, Ev.enqueued s d ∈ (playAudioChunk clock data (stopAudioPlayback now st).1).2 →
      clock ≤ s) := by
  refine ⟨rfl, rfl, le_refl _, rfl, fun s d hmem => ?_⟩
  rw [playAudioChunk] at hmem
  by_cases hint : (stopAudioPlayback now st).1.isInterrupted
  · rw [if_pos hint] at hmem
    simp at hmem
  · rw [if_neg hint] at hmem
    simp only [List.mem_singleton, Ev.enqueued.injEq] at hmem
    rcases hmem with ⟨hs, _⟩
    subst hs
    split_ifs with h
    · exact le_refl _
    · exact le_of_not_lt h

/-- Witness for C4's theorem at a concrete state and clock values. -/
theorem c4_stopAll_spec_witness :
    (stopAudioPlayback 5 ⟨2, [⟨0, 1⟩], false, "a", "b"⟩).1.audioSources = [] ∧
    (stopAudioPlayback 5 ⟨2, [⟨0, 1⟩], false, "a", "b"⟩).1.nextStartTime = 5 ∧
    (stopAudioPlayback 5 ⟨2, [⟨0, 1⟩], false, "a", "b"⟩).1.nextStartTime ≤ 5 ∧
    stopAudioPlayback 5 (stopAudioPlayback 5 ⟨2, [⟨0, 1⟩], false, "a", "b"⟩).1
      = stopAudioPlayback 5 ⟨2, [⟨0, 1⟩], false, "a", "b"⟩ ∧
    (∀ s d, Ev.enqueued s d ∈
        (playAudioChunk 7 [3] (stopAudioPlayback 5 ⟨2, [⟨0, 1⟩], false, "a", "b"⟩).1).2 →
      (7 : ℚ) ≤ s) :=
  c4_stopAll_spec ⟨2, [⟨0, 1⟩], false, "a", "b"⟩ 5 7 [3]

/-- Claim C3 (counterexample): two buffers enqueued with no interruption, where
the output clock has advanced past the end of the first buffer by the time the
second is enqueued: the second buffer is scheduled at the clock time `1`, not
at the first buffer's start time plus its duration (`0 + 1/24000`). -/
theorem c3_gapless_counterexample :
    (playAudioChunk 0 [0] ⟨0, [], false, "", ""⟩).1.isInterrupted = false ∧
    (playAudioChunk 0 [0] ⟨0, [], false, "", ""⟩).2 = [Ev.enqueued 0 (1 / 24000)] ∧
    (playAudioChunk 1 [0] (playAudioChunk 0 [0] ⟨0, [], false, "", ""⟩).1).2
      = [Ev.enqueued 1 (1 / 24000)] ∧
    (1 : ℚ) ≠ 0 + 1 / 24000 := by
  refine ⟨rfl, ?_, ?_, by norm_num⟩ <;>
    simp [playAudioChunk, int16ToFloat32] <;> norm_num

lemma enqueueAll_append (l1 l2 : List (ℚ × List ℤ)) :
    ∀ st : LiveState, (enqueueAll (l1 ++ l2) st).1 = (enqueueAll l2 (enqueueAll l1 st).1).1 := by
  induction l1 with
  | nil => intro st; rfl
  | cons c rest ih =>
    intro st
    rcases c with ⟨now, data⟩
    simp only [List.cons_append, enqueueAll]
    exact ih _

lemma enqueueAll_nextStartTime_mono (chunks : List (ℚ × List ℤ)) :
    ∀ st : LiveState, st.nextStartTime ≤ (enqueueAll chunks st).1.nextStartTime := by
  induction chunks with
  | nil => intro st; exact le_refl _
  | cons c rest ih =>
    intro st
    rcases c with ⟨now, data⟩
    simp only [enqueueAll]
    refine le_trans ?_ (ih (playAudioChunk now data st).1)
    by_cases hi : st.isInterrupted
    · rw [playAudioChunk, if_pos hi]
    · have hdur : (0 : ℚ) ≤ ((int16ToFloat32 data).length : ℚ) / 24000 := by positivity
      rw [playAudioChunk, if_neg hi]
      simp only
      split_ifs with h2 <;> linarith

/-- Scheduler invariant preserved by a sequence of enqueues: every live buffer
ends no later than the cursor, durations are non-negative, consecutive buffers
do not overlap, and the cursor never decreases. -/
lemma enqueueAll_invariant (chunks : List (ℚ × List ℤ)) :
    ∀ st : LiveState, st.isInterrupted = false →
      (∀ b ∈ st.audioSources, b.startTime + b.duration ≤ st.nextStartTime ∧ 0 ≤ b.duration) →
      List.Pairwise gapFree st.audioSources →
      ((enqueueAll chunks st).1.isInterrupted = false ∧
        (∀ b ∈ (enqueueAll chunks st).1.audioSources,
          b.startTime + b.duration ≤ (enqueueAll chunks st).1.nextStartTime ∧ 0 ≤ b.duration) ∧
        List.Pairwise gapFree (enqueueAll chunks st).1.audioSources) := by
  induction chunks with
  | nil => intro st h0 h1 h2; exact ⟨h0, h1, h2⟩
  | cons c rest ih =>
    intro st h0 h1 h2
    rcases c with ⟨now, data⟩
    simp only [enqueueAll]
    set dur : ℚ := ((int16ToFloat32 data).length : ℚ) / 24000 with hdurdef
    have hdur : (0 : ℚ) ≤ dur := by rw [hdurdef]; positivity
    have hplay : playAudioChunk now data st =
        ({ st with
            nextStartTime := (if st.nextStartTime < now then now else st.nextStartTime) + dur,
            audioSources := st.audioSources ++
              [⟨if st.nextStartTime < now then now else st.nextStartTime, dur⟩] },
          [Ev.enqueued (if st.nextStartTime < now then now else st.nextStartTime) dur]) := by
      rw [playAudioChunk, if_neg (by rw [h0]; exact Bool.false_ne_true)]
    set start : ℚ := if st.nextStartTime < now then now else st.nextStartTime with hstart
    have hnst_le_start : st.nextStartTime ≤ start := by
      rw [hstart]; split_ifs with h
      · exact le_of_lt h
      · exact le_refl _
    apply ih
    · rw [hplay]
      exact h0
    · rw [hplay]
      intro b hb
      simp only [List.mem_append, List.mem_singleton] at hb
      rcases hb with hb | hb
      · rcases h1 b hb with ⟨hb1, hb2⟩
        exact ⟨by simp only; linarith, hb2⟩
      · subst hb
        exact ⟨by simp only; linarith, hdur⟩
    · rw [hplay]
      simp only
      rw [List.pairwise_append]
      refine ⟨h2, List.pairwise_singleton _ _, fun a ha b hb => ?_⟩
      simp only [List.mem_singleton] at hb
      subst hb
      rcases h1 a ha with ⟨ha1, _⟩
      show a.startTime + a.duration ≤ start
      linarith

/-- Along a sequence of enqueues with no underrun, each buffer starts exactly
where the previous one ends and the last buffer ends at the cursor. -/
lemma enqueueAll_backToBack (chunks : List (ℚ × List ℤ)) :
    ∀ st : LiveState, st.isInterrupted = false →
      (∀ b ∈ st.audioSources.getLast?, b.startTime + b.duration = st.nextStartTime) →
      List.Chain' backToBack st.audioSources →
      noUnderrun st chunks = true →
      (List.Chain' backToBack (enqueueAll chunks st).1.audioSources ∧
        ∀ b ∈ (enqueueAll chunks st).1.audioSources.getLast?,
          b.startTime + b.duration = (enqueueAll chunks st).1.nextStartTime) := by
  induction chunks with
  | nil => intro st h0 h1 h2 _; exact ⟨h2, h1⟩
  | cons c rest ih =>
    intro st h0 h1 h2 hnu
    rcases c with ⟨now, data⟩
    rw [noUnderrun, Bool.and_eq_true, decide_eq_true_eq] at hnu
    rcases hnu with ⟨hle, hnu⟩
    simp only [enqueueAll]
    set dur : ℚ := ((int16ToFloat32 data).length : ℚ) / 24000 with hdurdef
    have hplay : playAudioChunk now data st =
        ({ st with
            nextStartTime := st.nextStartTime + dur,
            audioSources := st.audioSources ++ [⟨st.nextStartTime, dur⟩] },
          [Ev.enqueued st.nextStartTime dur]) := by
      rw [playAudioChunk, if_neg (by rw [h0]; exact Bool.false_ne_true),
        if_neg (not_lt.2 hle)]
    apply ih
    · rw [hplay]
      exact h0
    · rw [hplay]
      intro b hb
      simp only [List.getLast?_concat, Option.mem_def, Option.some.injEq] at hb
      subst hb
      rfl
    · rw [hplay]
      simp only
      rw [List.chain'_append]
      refine ⟨h2, List.chain'_singleton _, fun x hx y hy => ?_⟩
      simp only [List.head?_cons, Option.mem_def, Option.some.injEq] at hy
      subst hy
      show st.nextStartTime = x.startTime + x.duration
      exact (h1 x hx).symm
    · exact hnu

/-- Claim C3 (amended): over a sequence of enqueues with no interruption,
no two scheduled buffers overlap and the `nextStartTime` cursor is
monotonically non-decreasing after every prefix; each buffer's start equals
the previous buffer's start plus its duration whenever the output clock never
overtakes the cursor (on a clock underrun the code snaps the cursor forward to
the clock instead, leaving a gap). -/
theorem c3_gapless_amended (chunks : List (ℚ × List ℤ)) (st : LiveState)
    (h0 : st.isInterrupted = false) (h1 : st.audioSources = []) :
    List.Pairwise gapFree (enqueueAll chunks st).1.audioSources ∧
    (∀ pre suf, chunks = pre ++ suf →
      (enqueueAll pre st).1.nextStartTime ≤ (enqueueAll chunks st).1.nextStartTime) ∧
    (noUnderrun st chunks = true →
      List.Chain' backToBack (enqueueAll chunks st).1.audioSources) := by
  refine ⟨?_, ?_, ?_⟩
  · exact (enqueueAll_invariant chunks st h0
      (by rw [h1]; intro b hb; simp at hb) (by rw [h1]; exact List.Pairwise.nil)).2.2
  · intro pre suf hsplit
    subst hsplit
    rw [enqueueAll_append]
    exact enqueueAll_nextStartTime_mono suf _
  · intro hnu
    exact (enqueueAll_backToBack chunks st h0
      (by rw [h1]; intro b hb; simp at hb) (by rw [h1]; exact List.chain'_nil) hnu).1

/-- Witness for C3's amended theorem at a concrete two-chunk sequence. -/
theorem c3_gapless_amended_witness :
    List.Pairwise gapFree (enqueueAll [(0, [100]), (0, [200, 300])] ⟨0, [], false, "", ""⟩).1.audioSources ∧
    (∀ pre suf, [((0 : ℚ), [(100 : ℤ)]), (0, [200, 300])] = pre ++ suf →
      (enqueueAll pre ⟨0, [], false, "", ""⟩).1.nextStartTime ≤
        (enqueueAll [(0, [100]), (0, [200, 300])] ⟨0, [], false, "", ""⟩).1.nextStartTime) ∧
    (noUnderrun ⟨0, [], false, "", ""⟩ [(0, [100]), (0, [200, 300])] = true →
      List.Chain' backToBack
        (enqueueAll [(0, [100]), (0, [200, 300])] ⟨0, [], false, "", ""⟩).1.audioSources) :=
  c3_gapless_amended [(0, [100]), (0, [200, 300])] ⟨0, [], false, "", ""⟩ rfl rfl

/-- Claim C8: processing `turnComplete` emits exactly one final transcript
event per role whose accumulator is non-empty and clears both accumulators;
processing a second `turnComplete` with no intervening delta emits nothing
(in particular, with both accumulators empty no event is emitted). -/
theorem c8_finalizeTurn (now now2 : ℚ) (st : LiveState) :
    (handleMessage now turnCompleteMsg st).2 =
      (if st.currentInputTranscription ≠ "" then
        [Ev.transcript st.currentInputTranscription true true] else []) ++
      (if st.currentOutputTranscription ≠ "" then
        [Ev.transcript st.currentOutputTranscription false true] else []) ∧
    (handleMessage now turnCompleteMsg st).1.currentInputTranscription = "" ∧
    (handleMessage now turnCompleteMsg st).1.currentOutputTranscription = "" ∧
    (handleMessage now2 turnCompleteMsg (handleMessage now turnCompleteMsg st).1).2 = [] := by
  rcases st with ⟨nst, src, intr, inp, out⟩
  by_cases hin : inp = "" <;> by_cases hout : out = "" <;>
    simp [handleMessage, turnCompleteMsg, hin, hout]

/-- Under an already-raised interruption flag, a message that does not carry
`turnComplete` keeps the flag raised and enqueues no audio buffer. -/
lemma handleMessage_no_enqueue_of_interrupted (now : ℚ) (m : ServerMessage) (st : LiveState)
    (hst : st.isInterrupted = true) (hm : m.turnComplete = false) :
    (handleMessage now m st).1.isInterrupted = true ∧
    ∀ s d, Ev.enqueued s d ∉ (handleMessage now m st).2 := by
  rcases m with ⟨ad, intr, it, ot, tc⟩
  simp only at hm
  subst hm
  cases ad <;> cases intr <;> cases it <;> cases ot <;>
    constructor <;>
      simp [handleMessage, stopAudioPlayback, hst] <;> split_ifs <;> simp_all

/-- While the interruption flag is raised, no message of a `turnComplete`-free
stream enqueues an audio buffer. -/
lemma processMessages_no_enqueue (msgs : List (ℚ × ServerMessage)) :
    ∀ st : LiveState, st.isInterrupted = true →
      (∀ p ∈ msgs, p.2.turnComplete = false) →
      ((processMessages msgs st).1.isInterrupted = true ∧
        ∀ s d, Ev.enqueued s d ∉ (processMessages msgs st).2) := by
  induction msgs with
  | nil => intro st h0 _; exact ⟨h0, by intro s d hmem; simp [processMessages] at hmem⟩
  | cons p rest ih =>
    intro st h0 hall
    rcases p with ⟨now, m⟩
    have hm : m.turnComplete = false := hall (now, m) (by simp)
    have hstep := handleMessage_no_enqueue_of_interrupted now m st h0 hm
    have hrest := ih (handleMessage now m st).1 hstep.1
      (fun p hp => hall p (by simp [hp]))
    refine ⟨hrest.1, fun s d hmem => ?_⟩
    simp only [processMessages, List.mem_append] at hmem
    rcases hmem with hmem | hmem
    · exact hstep.2 s d hmem
    · exact hrest.2 s d hmem

/-- Claim C5: on an `interrupted` message the handler clears the live-source
set and resets the cursor to the clock (the `stopAll` effect), raises the
interruption flag, discards the output transcript accumulator while emitting
no final model-role transcript event, and notifies the `LISTENING` state; and
no audio chunk of the interrupted turn (any stream of messages before the next
`turnComplete`) is ever enqueued afterwards. -/
theorem c5_interruption (now : ℚ) (m : ServerMessage) (st : LiveState)
    (h1 : m.interrupted = true) (h2 : m.outputTranscription = none)
    (h3 : m.turnComplete = false)
    (msgs : List (ℚ × ServerMessage)) (hmsgs : ∀ p ∈ msgs, p.2.turnComplete = false) :
    (handleMessage now m st).1.audioSources = [] ∧
    (handleMessage now m st).1.nextStartTime = now ∧
    (handleMessage now m st).1.isInterrupted = true ∧
    (handleMessage now m st).1.currentOutputTranscription = "" ∧
    (∀ t, Ev.transcript t false true ∉ (handleMessage now m st).2) ∧
    Ev.stateChange EyeState.LISTENING ∈ (handleMessage now m st).2 ∧
    (∀ s d, Ev.enqueued s d ∉ (processMessages msgs (handleMessage now m st).1).2) := by
  have hstate : (handleMessage now m st).1.audioSources = [] ∧
      (handleMessage now m st).1.nextStartTime = now ∧
      (handleMessage now m st).1.isInterrupted = true ∧
      (handleMessage now m st).1.currentOutputTranscription = "" ∧
      (∀ t, Ev.transcript t false true ∉ (handleMessage now m st).2) ∧
      Ev.stateChange EyeState.LISTENING ∈ (handleMessage now m st).2 := by
    rcases m with ⟨ad, intr, it, ot, tc⟩
    simp only at h1 h2 h3
    subst h1; subst h2; subst h3
    cases ad <;> cases it <;>
      refine ⟨?_, ?_, ?_, ?_, ?_, ?_⟩ <;>
        simp [handleMessage, stopAudioPlayback, playAudioChunk] <;> split_ifs <;> simp
  refine ⟨hstate.1, hstate.2.1, hstate.2.2.1, hstate.2.2.2.1, hstate.2.2.2.2.1,
    hstate.2.2.2.2.2, ?_⟩
  exact (processMessages_no_enqueue msgs (handleMessage now m st).1
    hstate.2.2.1 hmsgs).2

/-- Witness for C5's theorem at a concrete interruption message and
follow-up stream. -/
theorem c5_interruption_witness :
    (handleMessage 3 (ServerMessage.mk (some [5]) true (some "xin") none false)
        ⟨2, [⟨0, 1⟩], false, "a", "b"⟩).1.audioSources = [] ∧
    (handleMessage 3 (ServerMessage.mk (some [5]) true (some "xin") none false)
        ⟨2, [⟨0, 1⟩], false, "a", "b"⟩).1.nextStartTime = 3 ∧
    (handleMessage 3 (ServerMessage.mk (some [5]) true (some "xin") none false)
        ⟨2, [⟨0, 1⟩], false, "a", "b"⟩).1.isInterrupted = true ∧
    (handleMessage 3 (ServerMessage.mk (some [5]) true (some "xin") none false)
        ⟨2, [⟨0, 1⟩], false, "a", "b"⟩).1.currentOutputTranscription = "" ∧
    (∀ t, Ev.transcript t false true ∉
      (handleMessage 3 (ServerMessage.mk (some [5]) true (some "xin") none false)
        ⟨2, [⟨0, 1⟩], false, "a", "b"⟩).2) ∧
    Ev.stateChange EyeState.LISTENING ∈
      (handleMessage 3 (ServerMessage.mk (some [5]) true (some "xin") none false)
        ⟨2, [⟨0, 1⟩], false, "a", "b"⟩).2 ∧
    (∀ s d, Ev.enqueued s d ∉
      (processMessages [(4, ServerMessage.mk (some [7]) false none none false)]
        (handleMessage 3 (ServerMessage.mk (some [5]) true (some "xin") none false)
          ⟨2, [⟨0, 1⟩], false, "a", "b"⟩).1).2) :=
  c5_interruption 3 (ServerMessage.mk (some [5]) true (some "xin") none false)
    ⟨2, [⟨0, 1⟩], false, "a", "b"⟩ rfl rfl rfl
    [(4, ServerMessage.mk (some [7]) false none none false)] (by decide)

/-- Claim C1 (counterexample): for the malformed identifier `"hello world"`
(11 characters but not matching the required character class) with title
`"Test"`, the part_009 dispatcher does invoke the `onVideoCommand` side-effect
handler (with a search card built from the title) and returns a
`fallback_search` result carrying the title, not a validation-error result
carrying the received invalid value and the expected format. -/
theorem c1_toolValidation_counterexample :
    isValidVideoId "hello world" = false ∧
    (playYoutubeVideoV9 (some "hello world") (some "Test")).1
      = HostCommand.videoCommand ⟨true, some "youtube", "Test", "Tìm kiếm: Test"⟩ ∧
    (playYoutubeVideoV9 (some "hello world") (some "Test")).2
      = ToolResultV9.fallbackSearch "Test" := by
  refine ⟨by decide, ?_, ?_⟩ <;> rfl

/-- Claim C1 (amended): for every `play_youtube_video` call whose coalesced
`videoId` argument fails the 11-character media-identifier test, the part_009
dispatcher never autoplays the invalid value: it invokes the video command
handler in search-fallback mode with the (defaulted) title as the query, and
returns the structured `fallback_search` result carrying that title back to
the remote model - it never returns a `playing` result - rather than silently
dropping or guessing an identifier. -/
theorem c1_toolValidation_amended (videoIdArg titleArg : Option String)
    (hbad : isValidVideoId (jsTrim (videoIdArg.getD "")) = false) :
    (playYoutubeVideoV9 videoIdArg titleArg =
      (HostCommand.videoCommand
        ⟨true, some "youtube", titleOrDefault titleArg,
          "Tìm kiếm: " ++ titleOrDefault titleArg⟩,
        ToolResultV9.fallbackSearch (titleOrDefault titleArg))) ∧
    ∀ v, (playYoutubeVideoV9 videoIdArg titleArg).2 ≠ ToolResultV9.playing v := by
  constructor
  · simp [playYoutubeVideoV9, hbad]
  · intro v hv
    simp [playYoutubeVideoV9, hbad] at hv

/-- Witness for C1's amended theorem at the concrete malformed input. -/
theorem c1_toolValidation_amended_witness :
    (playYoutubeVideoV9 (some "not-an-id") (some "Test") =
      (HostCommand.videoCommand ⟨true, some "youtube", "Test", "Tìm kiếm: " ++ "Test"⟩,
        ToolResultV9.fallbackSearch "Test")) ∧
    ∀ v, (playYoutubeVideoV9 (some "not-an-id") (some "Test")).2
      ≠ ToolResultV9.playing v :=
  c1_toolValidation_amended (some "not-an-id") (some "Test") (by decide)

/-- Claim C10: a function call whose name matches no known handler still gets
exactly one response, with the matching id and name and the default success
result `ok`, while the session promise is live; it triggers no host command
and no error payload (the dispatcher has no error payload at all). -/
theorem c10_unknownTool_spec (fc : FunctionCall) (hname : fc.name ∉ knownToolNames) :
    handleFunctionCall fc = ([], ToolResult.ok) ∧
    handleToolCall true [fc] = ([], [ToolResponse.mk fc.id fc.name ToolResult.ok]) := by
  simp only [knownToolNames, List.mem_cons, List.not_mem_nil, or_false] at hname
  push_neg at hname
  have hfc : handleFunctionCall fc = ([], ToolResult.ok) := by
    rw [handleFunctionCall]
    simp only [if_neg hname.1, if_neg hname.2.1, if_neg hname.2.2.1,
      if_neg hname.2.2.2.1, if_neg hname.2.2.2.2]
  refine ⟨hfc, ?_⟩
  rw [handleToolCall, handleToolCall]
  simp [hfc]

/-- Witness for C10's theorem at a concrete unrecognized tool name. -/
theorem c10_unknownTool_spec_witness :
    handleFunctionCall ⟨"id-1", "unknown_tool", {}⟩ = ([], ToolResult.ok) ∧
    handleToolCall true [⟨"id-1", "unknown_tool", {}⟩]
      = ([], [ToolResponse.mk "id-1" "unknown_tool" ToolResult.ok]) :=
  c10_unknownTool_spec ⟨"id-1", "unknown_tool", {}⟩ (by decide)

lemma sessionRun_append (l1 l2 : List SessionEvent) : ∀ st : ConnState,
    sessionRun st (l1 ++ l2) =
      ((sessionRun (sessionRun st l1).1 l2).1,
        (sessionRun st l1).2 ++ (sessionRun (sessionRun st l1).1 l2).2) := by
  induction l1 with
  | nil => intro st; simp [sessionRun]
  | cons e rest ih =>
    intro st
    simp only [List.cons_append, sessionRun, List.append_eq]
    rw [ih (sessionStep st e).1, List.append_assoc]

/-- While no session promise is live, `tick` and `opened` events emit nothing
and leave every field but `micOn` unchanged. -/
lemma sessionRun_inert (es : List SessionEvent)
    (hes : ∀ e ∈ es, e = SessionEvent.tick ∨ e = SessionEvent.opened) :
    ∀ st : ConnState, st.sessionPromise = none →
      ((sessionRun st es).1.session = st.session ∧
        (sessionRun st es).1.sessionPromise = none ∧
        (sessionRun st es).1.pendingClose = st.pendingClose ∧
        (sessionRun st es).2 = []) := by
  induction es with
  | nil => intro st hp; exact ⟨rfl, hp, rfl, rfl⟩
  | cons e rest ih =>
    intro st hp
    have he : e = SessionEvent.tick ∨ e = SessionEvent.opened := hes e (by simp)
    have hrest : ∀ e2 ∈ rest, e2 = SessionEvent.tick ∨ e2 = SessionEvent.opened :=
      fun e2 h2 => hes e2 (by simp [h2])
    rcases he with he | he <;> subst he
    · have hstep : sessionStep st SessionEvent.tick = (st, []) := by
        simp [sessionStep, audioTick, hp]
      have := ih hrest st hp
      simp only [sessionRun, hstep]
      simpa using this
    · have hstep : sessionStep st SessionEvent.opened = (handleOpen st, []) := rfl
      have := ih hrest (handleOpen st) hp
      simp only [sessionRun, hstep]
      simpa [handleOpen] using this

/-- Claim C7: `disconnect` performs, in order, the microphone/filter-graph
teardown, then the playback `stopAll`, then the transport close (directly or
registered on the still-pending promise); and when disconnect is issued while
a connect attempt is in flight, the whole run sends zero audio frames, closes
the eventually-resolved handle, and never adopts it as the owned session. -/
theorem c7_disconnect_spec (st : ConnState) (h : ℕ) (mids posts : List SessionEvent)
    (hmids : ∀ e ∈ mids, e = SessionEvent.tick ∨ e = SessionEvent.opened)
    (hposts : ∀ e ∈ posts, e = SessionEvent.tick ∨ e = SessionEvent.opened) :
    (∃ closeActs, (disconnect st).2 =
        [Act.trackStop, Act.processorDisconnect, Act.sourceDisconnect, Act.gainDisconnect,
          Act.lowPassDisconnect, Act.highPassDisconnect, Act.stopAllPlayback] ++ closeActs ∧
      ∀ a ∈ closeActs, ∃ h2, a = Act.closeSession h2) ∧
    (sessionRun ⟨none, none, none, false⟩
        ([SessionEvent.connectStarted h, SessionEvent.disconnectRequested] ++ mids ++
          [SessionEvent.connectResolved h] ++ posts)).1.session = none ∧
    Act.closeSession h ∈ (sessionRun ⟨none, none, none, false⟩
        ([SessionEvent.connectStarted h, SessionEvent.disconnectRequested] ++ mids ++
          [SessionEvent.connectResolved h] ++ posts)).2 ∧
    (∀ h2, Act.adoptSession h2 ∉ (sessionRun ⟨none, none, none, false⟩
        ([SessionEvent.connectStarted h, SessionEvent.disconnectRequested] ++ mids ++
          [SessionEvent.connectResolved h] ++ posts)).2) ∧
    (∀ h2, Act.sendFrame h2 ∉ (sessionRun ⟨none, none, none, false⟩
        ([SessionEvent.connectStarted h, SessionEvent.disconnectRequested] ++ mids ++
          [SessionEvent.connectResolved h] ++ posts)).2) := by
  have horder : ∃ closeActs, (disconnect st).2 =
      [Act.trackStop, Act.processorDisconnect, Act.sourceDisconnect, Act.gainDisconnect,
        Act.lowPassDisconnect, Act.highPassDisconnect, Act.stopAllPlayback] ++ closeActs ∧
      ∀ a ∈ closeActs, ∃ h2, a = Act.closeSession h2 := by
    rcases st with ⟨s, p, pc, m⟩
    cases s with
    | some hs =>
      refine ⟨[Act.closeSession hs], rfl, ?_⟩
      intro a ha
      simp only [List.mem_singleton] at ha
      exact ⟨hs, ha⟩
    | none =>
      cases p with
      | none => exact ⟨[], rfl, by intro a ha; simp at ha⟩
      | some hp => exact ⟨[], rfl, by intro a ha; simp at ha⟩
  have hassoc : [SessionEvent.connectStarted h, SessionEvent.disconnectRequested] ++ mids ++
      [SessionEvent.connectResolved h] ++ posts
      = [SessionEvent.connectStarted h, SessionEvent.disconnectRequested] ++
        (mids ++ ([SessionEvent.connectResolved h] ++ posts)) := by
    simp [List.append_assoc]
  have h2 : sessionRun (⟨none, none, none, false⟩ : ConnState)
      [SessionEvent.connectStarted h, SessionEvent.disconnectRequested]
      = (⟨none, none, some h, false⟩,
        [Act.trackStop, Act.processorDisconnect, Act.sourceDisconnect, Act.gainDisconnect,
          Act.lowPassDisconnect, Act.highPassDisconnect, Act.stopAllPlayback]) := rfl
  obtain ⟨hs3a, hs3b, hs3c, hs3d⟩ :=
    sessionRun_inert mids hmids ⟨none, none, some h, false⟩ rfl
  have hres : sessionStep (sessionRun ⟨none, none, some h, false⟩ mids).1
      (SessionEvent.connectResolved h)
      = ({ (sessionRun ⟨none, none, some h, false⟩ mids).1 with pendingClose := none },
        [Act.closeSession h, Act.closeSession h]) := by
    simp [sessionStep, resolveConnect, hs3b, hs3c]
  have hstep : sessionRun (sessionRun ⟨none, none, some h, false⟩ mids).1
      ([SessionEvent.connectResolved h] ++ posts)
      = ((sessionRun
            ({ (sessionRun ⟨none, none, some h, false⟩ mids).1 with pendingClose := none })
            posts).1,
        [Act.closeSession h, Act.closeSession h] ++
          (sessionRun
            ({ (sessionRun ⟨none, none, some h, false⟩ mids).1 with pendingClose := none })
            posts).2) := by
    rw [List.singleton_append, sessionRun, hres]
  obtain ⟨hp4a, hp4b, hp4c, hp4d⟩ := sessionRun_inert posts hposts
    ({ (sessionRun ⟨none, none, some h, false⟩ mids).1 with pendingClose := none })
    (by simpa using hs3b)
  have hfull : sessionRun (⟨none, none, none, false⟩ : ConnState)
      ([SessionEvent.connectStarted h, SessionEvent.disconnectRequested] ++ mids ++
        [SessionEvent.connectResolved h] ++ posts)
      = ((sessionRun
            ({ (sessionRun ⟨none, none, some h, false⟩ mids).1 with pendingClose := none })
            posts).1,
        [Act.trackStop, Act.processorDisconnect, Act.sourceDisconnect, Act.gainDisconnect,
          Act.lowPassDisconnect, Act.highPassDisconnect, Act.stopAllPlayback] ++
          ((sessionRun ⟨none, none, some h, false⟩ mids).2 ++
            ([Act.closeSession h, Act.closeSession h] ++
              (sessionRun
                ({ (sessionRun ⟨none, none, some h, false⟩ mids).1 with pendingClose := none })
                posts).2))) := by
    rw [hassoc, sessionRun_append, h2, sessionRun_append, hstep]
  refine ⟨horder, ?_, ?_, ?_, ?_⟩
  · rw [hfull]
    simp only
    rw [hp4a]
    simpa using hs3a
  · rw [hfull]
    simp
  · intro h2x
    rw [hfull]
    simp [hs3d, hp4d]
  · intro h2x
    rw [hfull]
    simp [hs3d, hp4d]

/-- Witness for C7's theorem at a concrete state, handle, and interleaving. -/
theorem c7_disconnect_spec_witness :
    (∃ closeActs, (disconnect ⟨some 9, none, none, true⟩).2 =
        [Act.trackStop, Act.processorDisconnect, Act.sourceDisconnect, Act.gainDisconnect,
          Act.lowPassDisconnect, Act.highPassDisconnect, Act.stopAllPlayback] ++ closeActs ∧
      ∀ a ∈ closeActs, ∃ h2, a = Act.closeSession h2) ∧
    (sessionRun ⟨none, none, none, false⟩
        ([SessionEvent.connectStarted 42, SessionEvent.disconnectRequested] ++
          [SessionEvent.tick] ++ [SessionEvent.connectResolved 42] ++
          [SessionEvent.opened, SessionEvent.tick])).1.session = none ∧
    Act.closeSession 42 ∈ (sessionRun ⟨none, none, none, false⟩
        ([SessionEvent.connectStarted 42, SessionEvent.disconnectRequested] ++
          [SessionEvent.tick] ++ [SessionEvent.connectResolved 42] ++
          [SessionEvent.opened, SessionEvent.tick])).2 ∧
    (∀ h2, Act.adoptSession h2 ∉ (sessionRun ⟨none, none, none, false⟩
        ([SessionEvent.connectStarted 42, SessionEvent.disconnectRequested] ++
          [SessionEvent.tick] ++ [SessionEvent.connectResolved 42] ++
          [SessionEvent.opened, SessionEvent.tick])).2) ∧
    (∀ h2, Act.sendFrame h2 ∉ (sessionRun ⟨none, none, none, false⟩
        ([SessionEvent.connectStarted 42, SessionEvent.disconnectRequested] ++
          [SessionEvent.tick] ++ [SessionEvent.connectResolved 42] ++
          [SessionEvent.opened, SessionEvent.tick])).2) :=
  c7_disconnect_spec ⟨some 9, none, none, true⟩ 42
    [SessionEvent.tick] [SessionEvent.opened, SessionEvent.tick]
    (by decide) (by decide)

lemma frameSumSq_nonneg (inputData : List ℚ) : 0 ≤ frameSumSq inputData := by
  apply List.sum_nonneg
  intro x hx
  simp only [List.mem_map] at hx
  rcases hx with ⟨s, _, rfl⟩
  exact mul_self_nonneg s

lemma frameSumSq_replicate_zero (n : ℕ) : frameSumSq (List.replicate n 0) = 0 := by
  simp [frameSumSq]

/-- Claim C9: the noise gate reports `rms * 100` on every frame independently
of the gate decision, and zeroes the entire frame exactly when the mean square
of the frame is below the square of the active threshold, the threshold being
`0.03` while the playback scheduler has active sources and `0.015` otherwise;
the frame is otherwise passed through unchanged. -/
theorem c9_noiseGate_spec (isAIPlaying : Bool) (inputData : List ℚ)
    (hlen : 0 < inputData.length) :
    (onaudioprocess isAIPlaying inputData).2 = frameRms inputData * 100 ∧
    ((onaudioprocess isAIPlaying inputData).1 = List.replicate inputData.length 0
      ↔ frameSumSq inputData / (inputData.length : ℚ)
          < (if isAIPlaying then (0.03 : ℚ) else 0.015) ^ 2) ∧
    ((onaudioprocess isAIPlaying inputData).1 = List.replicate inputData.length 0 ∨
      (onaudioprocess isAIPlaying inputData).1 = inputData) := by
  have hthrR : (0 : ℝ) < (if isAIPlaying then (0.03 : ℝ) else 0.015) := by
    split_ifs <;> norm_num
  have hcast : ((if isAIPlaying then (0.03 : ℚ) else 0.015) : ℝ)
      = (if isAIPlaying then (0.03 : ℝ) else 0.015) := by
    split_ifs <;> norm_num
  have hkey : frameRms inputData < (if isAIPlaying then (0.03 : ℝ) else 0.015)
      ↔ frameSumSq inputData / (inputData.length : ℚ)
          < (if isAIPlaying then (0.03 : ℚ) else 0.015) ^ 2 := by
    rw [frameRms, Real.sqrt_lt' hthrR]
    rw [show ((frameSumSq inputData : ℝ) / (inputData.length : ℝ))
        = ((frameSumSq inputData / (inputData.length : ℚ) : ℚ) : ℝ) by push_cast; ring]
    rw [show ((if isAIPlaying then (0.03 : ℝ) else 0.015) ^ 2)
        = (((if isAIPlaying then (0.03 : ℚ) else 0.015) ^ 2 : ℚ) : ℝ) by
      split_ifs <;> norm_num]
    exact Rat.cast_lt
  refine ⟨rfl, ?_, ?_⟩
  · constructor
    · intro hzero
      by_cases hgate : frameRms inputData < (if isAIPlaying then (0.03 : ℝ) else 0.015)
      · exact hkey.1 hgate
      · have hpass : (onaudioprocess isAIPlaying inputData).1 = inputData := by
          simp only [onaudioprocess]
          rw [if_neg (by simpa using hgate)]
        rw [hpass] at hzero
        rw [hzero]
        rw [frameSumSq_replicate_zero]
        have : (0 : ℚ) < (if isAIPlaying then (0.03 : ℚ) else 0.015) ^ 2 := by
          split_ifs <;> norm_num
        have hlenQ : (0 : ℚ) < (inputData.length : ℚ) := by exact_mod_cast hlen
        rw [zero_div]
        exact this
    · intro hlt
      have hgate := hkey.2 hlt
      simp only [onaudioprocess]
      rw [if_pos (by simpa using hgate)]
      simp
  · by_cases hgate : frameRms inputData < (if isAIPlaying then (0.03 : ℝ) else 0.015)
    · left
      simp only [onaudioprocess]
      rw [if_pos (by simpa using hgate)]
      simp
    · right
      simp only [onaudioprocess]
      rw [if_neg (by simpa using hgate)]

/-- Witness for C9's theorem at a concrete frame while the assistant plays. -/
theorem c9_noiseGate_spec_witness :
    (onaudioprocess true [3 / 5, 4 / 5]).2 = frameRms [3 / 5, 4 / 5] * 100 ∧
    ((onaudioprocess true [3 / 5, 4 / 5]).1 = List.replicate ([(3 : ℚ) / 5, 4 / 5]).length 0
      ↔ frameSumSq [3 / 5, 4 / 5] / (([(3 : ℚ) / 5, 4 / 5]).length : ℚ)
          < (if true then (0.03 : ℚ) else 0.015) ^ 2) ∧
    ((onaudioprocess true [3 / 5, 4 / 5]).1 = List.replicate ([(3 : ℚ) / 5, 4 / 5]).length 0 ∨
      (onaudioprocess true [3 / 5, 4 / 5]).1 = [3 / 5, 4 / 5]) :=
  c9_noiseGate_spec true [3 / 5, 4 / 5] (by decide)

end NanaDH
